import Mathlib

/-!
Verification of the ingestion and classification pipeline of `src/app.py`
(DI futures and FRA spreads dashboard).

The pipeline operates on a dataframe; we embed it over lists:
a table is a list of named columns, a column name is a `String`, and the
row order of a list models the dataframe's positional index (so "reindex
contiguously" corresponds to plain list positions).  Calls into the
external dataframe library (`pd.to_datetime`, `pd.to_numeric`, `.std()`)
are modelled as explicit functions, either kept abstract (a parameter of
the embedding) or, where a concrete instance is needed, modelled from the
spec's description of the library call.
-/

namespace DiDap

/-- Boolean sublist-infix test on character lists, used to embed Python's
substring operator `needle in hay`.  Core string functions recurse on
byte positions, so the embedding works on `String.data` throughout. -/
def subListIn (hay needle : List Char) : Bool :=
  (List.range (hay.length + 1)).any (fun i => needle.isPrefixOf (hay.drop i))

/-- Boolean substring test: Python's `needle in hay` on strings.
Used to embed the `"date" in lower` and `"-" in str(c)` tests of
`src/app.py`. -/
def strContains (hay needle : String) : Bool :=
  subListIn hay.data needle.data

/-- Lowercased character list of a string: Python's `str(col).lower()`
(ASCII letters; column names in this domain are ASCII). -/
def lowerStr (s : String) : List Char :=
  s.data.map Char.toLower

/-- Embeds the test `"date" in lower` of `detect_date_column`
(src/app.py line 36): the lowercased name contains the substring "date". -/
def isDateName (c : String) : Bool :=
  subListIn (lowerStr c) "date".data

/-- Embeds the test `"unnamed: 0" == lower` of `detect_date_column`
(src/app.py line 38): the lowercased name equals "unnamed: 0". -/
def isUnnamedName (c : String) : Bool :=
  decide (lowerStr c = "unnamed: 0".data)

/-- Disjunction of the two candidate predicates of `detect_date_column`. -/
def matchesEither (c : String) : Bool :=
  isDateName c || isUnnamedName c

/-- Embeds the `candidates` list built by `detect_date_column`
(src/app.py lines 33-39): for each column in order, it is appended once
if its lowercased name contains "date", and once more if its lowercased
name equals "unnamed: 0". -/
def candidatesOf (names : List String) : List String :=
  (names.map (fun c =>
    (if isDateName c then [c] else []) ++ (if isUnnamedName c then [c] else []))).flatten

/-- Embeds `detect_date_column` (src/app.py lines 31-43): the head of the
candidate list when it is nonempty, else the first column, else `none`. -/
def detect_date_column (names : List String) : Option String :=
  match candidatesOf names with
  | c :: _ => some c
  | [] => names.head?

/-- Embeds `df.rename(columns={date_col: "Date"})` (src/app.py line 60):
every column name equal to the detected one becomes "Date"; all other
names are unchanged. -/
def renameCols (names : List String) (dateCol : String) : List String :=
  names.map (fun c => if c = dateCol then "Date" else c)

/-- Embeds Python's `str(c).startswith("F")`. -/
def startsWithF (c : String) : Bool :=
  "F".data.isPrefixOf c.data

/-- DI predicate of src/app.py line 65:
`str(c).startswith("F") and "-" not in str(c)`. -/
def isDI (c : String) : Bool :=
  startsWithF c && !(strContains c "-")

/-- FRA predicate of src/app.py line 66: `"-" in str(c)`. -/
def isFRA (c : String) : Bool :=
  strContains c "-"

/-- Embeds `di_cols = [c for c in df.columns if ...]` (src/app.py line 65). -/
def di_cols (names : List String) : List String :=
  names.filter isDI

/-- Embeds `fra_cols = [c for c in df.columns if ...]` (src/app.py line 66). -/
def fra_cols (names : List String) : List String :=
  names.filter isFRA

/-- Splits a character list on the dash character, Python's
`s.split("-")` (always at least one piece; adjacent dashes give empty
pieces). -/
def splitOnDash : List Char → List (List Char)
  | [] => [[]]
  | c :: t =>
    if c = '-' then [] :: splitOnDash t
    else
      match splitOnDash t with
      | h :: r => (c :: h) :: r
      | [] => [[c]]

/-- Decimal value of a nonempty all-digit character list, `none`
otherwise. -/
def toNatDigits (l : List Char) : Option Nat :=
  if l = [] then none
  else if l.all Char.isDigit then
    some (l.foldl (fun n c => 10 * n + (c.toNat - 48)) 0)
  else none

/-- Modelled from the spec: the external dataframe library's date parser
(`pd.to_datetime(..., errors="coerce")`, src/app.py line 61, a library
call whose code is not in this repository), restricted to ISO
`YYYY-MM-DD` strings; any string not of that shape parses to `none`
(the missing marker `NaT`). -/
def parseDateISO (s : String) : Option (Nat × Nat × Nat) :=
  match splitOnDash s.data with
  | [y, m, d] =>
    match toNatDigits y, toNatDigits m, toNatDigits d with
    | some yn, some mn, some dn =>
      if y.length = 4 && m.length = 2 && d.length = 2
          && 1 ≤ mn && mn ≤ 12 && 1 ≤ dn && dn ≤ 31
      then some (yn, mn, dn) else none
    | _, _, _ => none
  | _ => none

/-- Embeds `df["Date"] = pd.to_datetime(df["Date"], errors="coerce")`
(src/app.py line 61) over rows `(dateCell, rest)`: the date cell of every
row is parsed, unparsable cells becoming the missing marker `none`.  The
parser itself is a parameter (it lives in the external library). -/
def parseDateColumn {D α : Type} (parse : String → Option D)
    (rows : List (String × α)) : List (Option D × α) :=
  rows.map (fun r => (parse r.1, r.2))

/-- Embeds `df = df[~df["Date"].isna()].reset_index(drop=True)`
(src/app.py line 62): rows whose date is missing are dropped; the
survivors keep their relative order and are re-numbered contiguously
(list positions). -/
def dropMissingDates {D α : Type} (rows : List (Option D × α)) :
    List (Option D × α) :=
  rows.filter (fun r => r.1.isSome)

/-- The date-cleaning composite of src/app.py lines 61-62. -/
def cleanTable {D α : Type} (parse : String → Option D)
    (rows : List (String × α)) : List (Option D × α) :=
  dropMissingDates (parseDateColumn parse rows)

/-- Value stored in one dataframe cell: raw text, a number, or the
missing marker (NaN). -/
inductive Cell where
  | str (s : String)
  | num (q : ℚ)
  | missing
deriving DecidableEq

/-- A table: a list of named columns, each a column name with its cells. -/
abbrev Table := List (String × List Cell)

/-- Column names of a table, in order (`df.columns`). -/
def colNames (t : Table) : List String :=
  t.map (fun p => p.1)

/-- DI classification of a table (src/app.py line 65): a function of the
column names only. -/
def di_cols_of (t : Table) : List String :=
  di_cols (colNames t)

/-- FRA classification of a table (src/app.py line 66): a function of the
column names only. -/
def fra_cols_of (t : Table) : List String :=
  fra_cols (colNames t)

/-- Does a cell hold a numeric value or the missing marker (never raw
text)?  This is the postcondition of numeric coercion. -/
def isNumOrMissing : Cell → Bool
  | .num _ => true
  | .missing => true
  | .str _ => false

/-- One cell under `pd.to_numeric(..., errors="coerce")`: the attempted
conversion (a parameter: it lives in the external library) either yields
a number or the missing marker; it never raises. -/
def coerceCell (toNum : Cell → Option ℚ) (c : Cell) : Cell :=
  match toNum c with
  | some q => .num q
  | none => .missing

/-- Action of one coercion pass on a single named column: a column whose
name is in `cols` has all its cells coerced; any other column is
untouched. -/
def coerceStep (toNum : Cell → Option ℚ) (cols : List String)
    (p : String × List Cell) : String × List Cell :=
  if p.1 ∈ cols then (p.1, p.2.map (coerceCell toNum)) else p

/-- One assignment `df[cols] = df[cols].apply(pd.to_numeric, errors="coerce")`
(src/app.py lines 70 and 72): every column whose name is in `cols` has all
its cells coerced; every other column is untouched. -/
def coercePass (toNum : Cell → Option ℚ) (cols : List String) (t : Table) :
    Table :=
  t.map (coerceStep toNum cols)

/-- Embeds the numeric-coercion block of src/app.py lines 69-72: the DI
pass followed by the FRA pass, both column lists computed from the
table's names beforehand (lines 65-66).  The `if di_cols:` guards in the
source only skip a pass over an empty column list, which is the identity,
so they are not modelled separately. -/
def coerceTable (toNum : Cell → Option ℚ) (t : Table) : Table :=
  coercePass toNum (fra_cols_of t) (coercePass toNum (di_cols_of t) t)

/-- Modelled from the spec: the external dataframe library's numeric
conversion (`pd.to_numeric` with coerce, src/app.py lines 70 and 72,
a library call whose code is not in this repository), restricted to
natural-number literals; numbers pass through, other text and the
missing marker convert to `none`. -/
def to_numeric (c : Cell) : Option ℚ :=
  match c with
  | .num q => some q
  | .str s => (toNatDigits s.data).map (fun n => (n : ℚ))
  | .missing => none

/-- Embeds the date-range mask and row filter of src/app.py lines 94-95:
keep exactly the rows whose date lies in the inclusive interval
`[s, e]`.  Dates are modelled as integers (timestamps are totally
ordered; only comparisons are used). -/
def filterByDateRange {α : Type} (s e : Int) (rows : List (Int × α)) :
    List (Int × α) :=
  rows.filter (fun r => decide (s ≤ r.1) && decide (r.1 ≤ e))

/-- Value produced by the date-range widget (src/app.py lines 82-87):
either a pair of dates or a single date. -/
inductive DateRangeValue where
  | pair (s e : Int)
  | single (d : Int)

/-- Embeds src/app.py lines 89-92: a tuple is unpacked into
`(start_date, end_date)`; any non-tuple value falls back to the full
`(min_date, max_date)` range of the cleaned table. -/
def resolveDateRange (v : DateRangeValue) (minD maxD : Int) : Int × Int :=
  match v with
  | .pair s e => (s, e)
  | .single _ => (minD, maxD)

/-- Sample variance of a list of rationals with the dataframe library's
default ddof = 1 (Bessel's correction); lists of fewer than two values
have no sample variance (`none`, the library's NaN).  The library's
`.std()` (src/app.py line 201) is the square root of this; since the
square root is strictly monotone on nonnegative values, comparing
variances orders columns exactly as comparing standard deviations does,
so the ranking is modelled on variances to stay within `ℚ`. -/
def sampleVar (xs : List ℚ) : Option ℚ :=
  if xs.length ≤ 1 then none
  else
    some (((xs.map (fun x => (x - xs.sum / xs.length) ^ 2)).sum) / (xs.length - 1))

/-- Descending comparison on dispersion values, missing values last: the
order of `sort_values(ascending=False)` on a series that may contain
NaN (src/app.py line 201). -/
def stdCmp (a b : Option ℚ) : Bool :=
  match a, b with
  | some x, some y => decide (y ≤ x)
  | some _, none => true
  | none, some _ => false
  | none, none => true

/-- Embeds `fra_std = df_filtered[selected_fra].std().sort_values(ascending=False)`
(src/app.py line 201): each selected column is reduced to its dispersion
value, and the columns are sorted in descending order of that value. -/
def fra_std (cols : List (String × List ℚ)) : List (String × Option ℚ) :=
  List.insertionSort (fun a b => stdCmp a.2 b.2 = true)
    (cols.map (fun c => (c.1, sampleVar c.2)))

/-! Helper lemmas -/

/-- Columns named "unnamed: 0" (lowercased) never contain the substring
"date": the two candidate predicates of `detect_date_column` are mutually
exclusive. -/
lemma isDateName_eq_false_of_isUnnamedName {c : String}
    (h : isUnnamedName c = true) : isDateName c = false := by
  have h' : lowerStr c = "unnamed: 0".data := of_decide_eq_true h
  unfold isDateName
  rw [h']
  decide

/-- Per-column contribution to the candidate list: since the two
predicates are mutually exclusive, each column contributes itself once
when it matches either predicate and nothing otherwise. -/
lemma candidate_block_eq (c : String) :
    ((if isDateName c then [c] else []) ++ (if isUnnamedName c then [c] else []))
      = if matchesEither c then [c] else [] := by
  by_cases hd : isDateName c = true
  · have hu : isUnnamedName c = false := by
      cases hu : isUnnamedName c
      · rfl
      · rw [isDateName_eq_false_of_isUnnamedName hu] at hd; cases hd
    simp [matchesEither, hd, hu]
  · have hd' : isDateName c = false := by simpa using hd
    by_cases hu : isUnnamedName c = true
    · simp [matchesEither, hd', hu]
    · have hu' : isUnnamedName c = false := by simpa using hu
      simp [matchesEither, hd', hu']

/-- The candidate list of `detect_date_column` is the sublist of columns
matching either predicate, in column order. -/
lemma candidatesOf_eq_filter (names : List String) :
    candidatesOf names = names.filter matchesEither := by
  induction names with
  | nil => rfl
  | cons c t ih =>
    unfold candidatesOf at ih ⊢
    rw [List.map_cons, List.flatten_cons, ih, candidate_block_eq, List.filter_cons]
    by_cases h : matchesEither c = true
    · simp [h]
    · have h' : matchesEither c = false := by simpa using h
      simp [h']

/-- Detection returns the head of the filtered candidate list when a
column matches either predicate. -/
lemma detect_eq_of_filter_cons {names : List String} {c : String}
    {rest : List String} (h : names.filter matchesEither = c :: rest) :
    detect_date_column names = some c := by
  unfold detect_date_column
  rw [candidatesOf_eq_filter, h]

/-- Renaming the column already named "Date" to "Date" changes nothing. -/
lemma renameCols_Date (l : List String) : renameCols l "Date" = l := by
  unfold renameCols
  induction l with
  | nil => rfl
  | cons c t ih =>
    rw [List.map_cons, ih, List.cons.injEq]
    refine ⟨?_, rfl⟩
    split
    · simp_all
    · rfl

/-- A column in the DI group never belongs to the FRA group: its name
contains no hyphen while FRA membership requires one. -/
lemma not_mem_fra_of_mem_di {c : String} {l : List String}
    (h : c ∈ di_cols l) : c ∉ fra_cols l := by
  intro hf
  have hdi := (List.mem_filter.mp h).2
  have hfra := (List.mem_filter.mp hf).2
  unfold isDI at hdi
  unfold isFRA at hfra
  rw [Bool.and_eq_true, Bool.not_eq_true'] at hdi
  rw [hdi.2] at hfra
  cases hfra

/-- A coerced cell is always a number or the missing marker. -/
lemma isNumOrMissing_coerceCell (toNum : Cell → Option ℚ) (c : Cell) :
    isNumOrMissing (coerceCell toNum c) = true := by
  unfold coerceCell
  cases toNum c <;> rfl

/-! Claims C1 to C10 -/

/-- Claim C1, counterexample: the claim says the "date"-substring column
has strict priority over the "unnamed: 0" column regardless of position,
but on the table with columns ["Unnamed: 0", "Date"] the code appends
both matches in column order and takes the head, selecting
"Unnamed: 0" rather than "Date". -/
theorem detect_priority_counterexample :
    detect_date_column ["Unnamed: 0", "Date"] = some "Unnamed: 0" ∧
    some "Unnamed: 0" ≠ some "Date" := by
  refine ⟨by decide, by decide⟩

/-- Claim C1 (amended): for every table containing at least one column
that matches the "date"-substring predicate or the "unnamed: 0"
predicate, `detect_date_column` selects the first matching column in
column order — position, not predicate, decides; in particular the
"date"-substring column is selected whenever it precedes every
"unnamed: 0" column. -/
theorem detect_selects_first_match (names : List String) (c : String)
    (rest : List String) (h : names.filter matchesEither = c :: rest) :
    detect_date_column names = some c ∧ matchesEither c = true := by
  refine ⟨detect_eq_of_filter_cons h, ?_⟩
  have : c ∈ names.filter matchesEither := by
    rw [h]; exact List.mem_cons_self c rest
  exact (List.mem_filter.mp this).2

/-- Claim C1 (amended), witness: on columns ["Price", "Date",
"Unnamed: 0"], where the "Date" column precedes the "Unnamed: 0" column,
detection selects "Date". -/
theorem detect_selects_first_match_witness :
    detect_date_column ["Price", "Date", "Unnamed: 0"] = some "Date" ∧
    matchesEither "Date" = true :=
  detect_selects_first_match ["Price", "Date", "Unnamed: 0"] "Date"
    ["Unnamed: 0"] (by decide)

/-- Claim C3: the classification partitions column names by the stated
predicates, preserving input order within each group (each group is a
sublist of the input); a name starting with "F" without a hyphen is DI,
a name with a hyphen is FRA, and a name matching neither predicate is in
neither group; on ["Date", "F1", "F2", "F1-F2", "Price"] this yields
DI = ["F1", "F2"] and FRA = ["F1-F2"], with "Price" in neither. -/
theorem classification_partition (l : List String) :
    (di_cols l).Sublist l ∧ (fra_cols l).Sublist l ∧
    (∀ c, c ∈ di_cols l ↔
      c ∈ l ∧ startsWithF c = true ∧ strContains c "-" = false) ∧
    (∀ c, c ∈ fra_cols l ↔ c ∈ l ∧ strContains c "-" = true) ∧
    di_cols ["Date", "F1", "F2", "F1-F2", "Price"] = ["F1", "F2"] ∧
    fra_cols ["Date", "F1", "F2", "F1-F2", "Price"] = ["F1-F2"] ∧
    "Price" ∉ di_cols ["Date", "F1", "F2", "F1-F2", "Price"] ∧
    "Price" ∉ fra_cols ["Date", "F1", "F2", "F1-F2", "Price"] := by
  refine ⟨List.filter_sublist _, List.filter_sublist _, ?_, ?_,
    by decide, by decide, by decide, by decide⟩
  · intro c
    unfold di_cols
    rw [List.mem_filter]
    unfold isDI
    rw [Bool.and_eq_true, Bool.not_eq_true']
  · intro c
    unfold fra_cols
    rw [List.mem_filter]
    unfold isFRA
    exact Iff.rfl

/-- Claim C3, witness: the concrete partition of the example column
list, obtained from the general theorem. -/
theorem classification_partition_witness :
    di_cols ["Date", "F1", "F2", "F1-F2", "Price"] = ["F1", "F2"] ∧
    fra_cols ["Date", "F1", "F2", "F1-F2", "Price"] = ["F1-F2"] :=
  ⟨(classification_partition []).2.2.2.2.1,
   (classification_partition []).2.2.2.2.2.1⟩

/-- Claim C4: the DI and FRA classification sets are disjoint for every
column-name list, and both are functions of the column-name text only:
two tables with identical column names (whatever their cells) classify
identically. -/
theorem classification_disjoint_and_name_determined
    (names : List String) (c : String) (t₁ t₂ : Table)
    (hnames : colNames t₁ = colNames t₂) :
    ¬(c ∈ di_cols names ∧ c ∈ fra_cols names) ∧
    di_cols_of t₁ = di_cols_of t₂ ∧ fra_cols_of t₁ = fra_cols_of t₂ := by
  refine ⟨fun h => not_mem_fra_of_mem_di h.1 h.2, ?_, ?_⟩
  · unfold di_cols_of; rw [hnames]
  · unfold fra_cols_of; rw [hnames]

/-- Claim C4, witness: disjointness on a concrete name list, and equal
classifications for two one-column tables sharing the name "F1" but
holding different cells. -/
theorem classification_disjoint_witness :
    ¬("F1" ∈ di_cols ["F1", "A-B"] ∧ "F1" ∈ fra_cols ["F1", "A-B"]) ∧
    di_cols_of [("F1", [Cell.str "x"])] = di_cols_of [("F1", [Cell.num 3])] ∧
    fra_cols_of [("F1", [Cell.str "x"])] = fra_cols_of [("F1", [Cell.num 3])] :=
  classification_disjoint_and_name_determined ["F1", "A-B"] "F1"
    [("F1", [Cell.str "x"])] [("F1", [Cell.num 3])] rfl

/-- Claim C8: when the date-range widget yields a single value the
resolved bounds default to the full range from the minimum to the
maximum date of the cleaned table, and when it yields a pair that pair
is used as (start, end); resolution is total, so the filter never
crashes on a single-value widget result. -/
theorem resolve_date_range_spec (s e d mn mx : Int) :
    resolveDateRange (.pair s e) mn mx = (s, e) ∧
    resolveDateRange (.single d) mn mx = (mn, mx) :=
  ⟨rfl, rfl⟩

/-- Claim C2: after cleaning, every row carries a non-missing parsed
date, the output row count never exceeds the input row count (rows are
only dropped), and — the list embedding numbering rows by position —
the survivors are indexed contiguously from 0; on the two-row example
with one unparsable date, exactly one row survives. -/
theorem clean_table_spec {D α : Type} (parse : String → Option D)
    (rows : List (String × α)) :
    (∀ r ∈ cleanTable parse rows, r.1.isSome = true) ∧
    (cleanTable parse rows).length ≤ rows.length ∧
    cleanTable parseDateISO
        [("2023-01-01", ["1.5", "2.5"]), ("bad-date", ["1.6", "2.6"])]
      = [(some (2023, 1, 1), ["1.5", "2.5"])] := by
  refine ⟨?_, ?_, by decide⟩
  · intro r hr
    unfold cleanTable dropMissingDates at hr
    exact (List.mem_filter.mp hr).2
  · unfold cleanTable dropMissingDates parseDateColumn
    calc ((rows.map (fun r => (parse r.1, r.2))).filter (fun r => r.1.isSome)).length
        ≤ (rows.map (fun r => (parse r.1, r.2))).length := List.length_filter_le _ _
      _ = rows.length := List.length_map _ _

/-- Claim C2, witness: the concrete two-row example, one row of which
has an unparsable date, cleans to exactly one row. -/
theorem clean_table_spec_witness :
    cleanTable parseDateISO
        [("2023-01-01", ["1.5", "2.5"]), ("bad-date", ["1.6", "2.6"])]
      = [(some (2023, 1, 1), ["1.5", "2.5"])] :=
  (clean_table_spec parseDateISO
    ([] : List (String × Unit))).2.2

/-- Claim C5: the date-range filter returns exactly the rows whose date
lies in the inclusive interval [s, e]; with s = e it returns exactly the
rows of that single day; and when every date present is below s (in
particular when s exceeds the maximum date) the result is the empty row
set — the filter is a total function, so no error is possible. -/
theorem filter_by_date_range_spec {α : Type} (s e : Int)
    (rows : List (Int × α)) :
    (∀ r, r ∈ filterByDateRange s e rows ↔ r ∈ rows ∧ s ≤ r.1 ∧ r.1 ≤ e) ∧
    (∀ r, r ∈ filterByDateRange s s rows ↔ r ∈ rows ∧ r.1 = s) ∧
    ((∀ r ∈ rows, r.1 < s) → filterByDateRange s e rows = []) := by
  refine ⟨?_, ?_, ?_⟩
  · intro r
    unfold filterByDateRange
    rw [List.mem_filter, Bool.and_eq_true, decide_eq_true_eq, decide_eq_true_eq]
  · intro r
    unfold filterByDateRange
    rw [List.mem_filter, Bool.and_eq_true, decide_eq_true_eq, decide_eq_true_eq]
    constructor
    · rintro ⟨hm, h1, h2⟩
      exact ⟨hm, le_antisymm h2 h1⟩
    · rintro ⟨hm, h⟩
      exact ⟨hm, le_of_eq h.symm, le_of_eq h⟩
  · intro hmax
    unfold filterByDateRange
    rw [List.filter_eq_nil_iff]
    intro r hr
    rw [Bool.and_eq_true, decide_eq_true_eq, decide_eq_true_eq]
    rintro ⟨h1, _⟩
    exact absurd h1 (not_le.mpr (hmax r hr))

/-- Claim C5, witness: with the single date 5 present and the range
[10, 12] starting above it, the filter returns the empty row set. -/
theorem filter_by_date_range_spec_witness :
    filterByDateRange 10 12 [((5 : Int), "x")] = [] :=
  (filter_by_date_range_spec 10 12 [((5 : Int), "x")]).2.2 (by decide)

/-- Pointwise action of the two coercion passes on one column: the name
is preserved, DI or FRA columns are coerced cell by cell (each cell
becoming a number or a missing marker), and all other columns are left
unchanged. -/
lemma coerce_step_both_spec (toNum : Cell → Option ℚ) (t : Table)
    (p : String × List Cell) :
    (coerceStep toNum (fra_cols_of t) (coerceStep toNum (di_cols_of t) p)).1
      = p.1 ∧
    (p.1 ∈ di_cols_of t ∨ p.1 ∈ fra_cols_of t →
      (coerceStep toNum (fra_cols_of t) (coerceStep toNum (di_cols_of t) p)).2
        = p.2.map (coerceCell toNum) ∧
      ∀ c ∈ (coerceStep toNum (fra_cols_of t)
          (coerceStep toNum (di_cols_of t) p)).2,
        isNumOrMissing c = true) ∧
    (p.1 ∉ di_cols_of t ∧ p.1 ∉ fra_cols_of t →
      coerceStep toNum (fra_cols_of t) (coerceStep toNum (di_cols_of t) p)
        = p) := by
  by_cases hdi : p.1 ∈ di_cols_of t
  · have hfra : p.1 ∉ fra_cols_of t := not_mem_fra_of_mem_di hdi
    have h1 : coerceStep toNum (di_cols_of t) p
        = (p.1, p.2.map (coerceCell toNum)) := by
      unfold coerceStep
      rw [if_pos hdi]
    have h2 : coerceStep toNum (fra_cols_of t) (p.1, p.2.map (coerceCell toNum))
        = (p.1, p.2.map (coerceCell toNum)) := by
      unfold coerceStep
      rw [if_neg hfra]
    rw [h1, h2]
    refine ⟨rfl, fun _ => ⟨rfl, ?_⟩, fun h => absurd hdi h.1⟩
    intro c hc
    obtain ⟨a, _, rfl⟩ := List.mem_map.mp hc
    exact isNumOrMissing_coerceCell toNum a
  · have h1 : coerceStep toNum (di_cols_of t) p = p := by
      unfold coerceStep
      rw [if_neg hdi]
    by_cases hfra : p.1 ∈ fra_cols_of t
    · have h2 : coerceStep toNum (fra_cols_of t) p
          = (p.1, p.2.map (coerceCell toNum)) := by
        unfold coerceStep
        rw [if_pos hfra]
      rw [h1, h2]
      refine ⟨rfl, fun _ => ⟨rfl, ?_⟩, fun h => absurd hfra h.2⟩
      intro c hc
      obtain ⟨a, _, rfl⟩ := List.mem_map.mp hc
      exact isNumOrMissing_coerceCell toNum a
    · have h2 : coerceStep toNum (fra_cols_of t) p = p := by
        unfold coerceStep
        rw [if_neg hfra]
      rw [h1, h2]
      exact ⟨rfl, fun h => absurd h (by simp [hdi, hfra]), fun _ => rfl⟩

/-- Claim C6: numeric coercion walks the table column by column; every
column in the DI or FRA group keeps its name and has each of its cells
replaced by the attempted conversion — a numeric value, or the missing
marker when conversion fails — so every coerced cell is numeric or
missing; every column outside the two groups is left entirely
unchanged.  The embedding is a total function, so coercion never
raises. -/
theorem coerce_table_spec (toNum : Cell → Option ℚ) (t : Table) :
    List.Forall₂ (fun o r =>
      r.1 = o.1 ∧
      (o.1 ∈ di_cols_of t ∨ o.1 ∈ fra_cols_of t →
        r.2 = o.2.map (coerceCell toNum) ∧
        ∀ c ∈ r.2, isNumOrMissing c = true) ∧
      (o.1 ∉ di_cols_of t ∧ o.1 ∉ fra_cols_of t → r = o))
      t (coerceTable toNum t) := by
  have hmap : coerceTable toNum t
      = t.map (fun p =>
          coerceStep toNum (fra_cols_of t) (coerceStep toNum (di_cols_of t) p)) := by
    unfold coerceTable coercePass
    rw [List.map_map]
    rfl
  rw [hmap, List.forall₂_map_right_iff, List.forall₂_same]
  intro p _
  exact coerce_step_both_spec toNum t p

/-- Claim C6, witness: coercion of a concrete four-column table — a
"Date" column and a "Price" column stay untouched, a DI column and an
FRA column are fully coerced to numbers or missing markers. -/
theorem coerce_table_spec_witness :
    List.Forall₂ (fun o r =>
      r.1 = o.1 ∧
      (o.1 ∈ di_cols_of [("Date", [Cell.str "2023-01-01"]),
            ("F1", [Cell.str "15", Cell.str "oops"]),
            ("A-B", [Cell.missing]), ("Price", [Cell.str "9"])] ∨
       o.1 ∈ fra_cols_of [("Date", [Cell.str "2023-01-01"]),
            ("F1", [Cell.str "15", Cell.str "oops"]),
            ("A-B", [Cell.missing]), ("Price", [Cell.str "9"])] →
        r.2 = o.2.map (coerceCell to_numeric) ∧
        ∀ c ∈ r.2, isNumOrMissing c = true) ∧
      (o.1 ∉ di_cols_of [("Date", [Cell.str "2023-01-01"]),
            ("F1", [Cell.str "15", Cell.str "oops"]),
            ("A-B", [Cell.missing]), ("Price", [Cell.str "9"])] ∧
       o.1 ∉ fra_cols_of [("Date", [Cell.str "2023-01-01"]),
            ("F1", [Cell.str "15", Cell.str "oops"]),
            ("A-B", [Cell.missing]), ("Price", [Cell.str "9"])] → r = o))
      [("Date", [Cell.str "2023-01-01"]),
        ("F1", [Cell.str "15", Cell.str "oops"]),
        ("A-B", [Cell.missing]), ("Price", [Cell.str "9"])]
      (coerceTable to_numeric
        [("Date", [Cell.str "2023-01-01"]),
          ("F1", [Cell.str "15", Cell.str "oops"]),
          ("A-B", [Cell.missing]), ("Price", [Cell.str "9"])]) :=
  coerce_table_spec to_numeric
    [("Date", [Cell.str "2023-01-01"]),
      ("F1", [Cell.str "15", Cell.str "oops"]),
      ("A-B", [Cell.missing]), ("Price", [Cell.str "9"])]

/-- Claim C7: the volatility ranking reduces each selected FRA column to
its dispersion over the filtered rows and orders the columns so that a
higher dispersion never follows a lower one (pairwise descending, the
output being a permutation of the per-column reductions); ordering by
the sample variance computed here coincides with ordering by standard
deviation, the square root being monotone.  On {"A-B": [1,2,3],
"C-D": [1,1,1]} the ranking places "A-B" (variance 1) before "C-D"
(variance 0). -/
theorem fra_std_spec (cols : List (String × List ℚ)) :
    (fra_std cols).Pairwise (fun a b => stdCmp a.2 b.2 = true) ∧
    (fra_std cols).Perm (cols.map (fun c => (c.1, sampleVar c.2))) ∧
    fra_std [("A-B", [1, 2, 3]), ("C-D", [1, 1, 1])]
      = [("A-B", some 1), ("C-D", some 0)] := by
  haveI htot : IsTotal (String × Option ℚ) (fun a b => stdCmp a.2 b.2 = true) := by
    constructor
    rintro ⟨a1, a2⟩ ⟨b1, b2⟩
    rcases a2 with _ | x <;> rcases b2 with _ | y <;> simp [stdCmp]
    exact le_total y x
  haveI htrans : IsTrans (String × Option ℚ) (fun a b => stdCmp a.2 b.2 = true) := by
    constructor
    rintro ⟨a1, a2⟩ ⟨b1, b2⟩ ⟨c1, c2⟩ hab hbc
    rcases a2 with _ | x <;> rcases b2 with _ | y <;> rcases c2 with _ | z <;>
      simp_all [stdCmp]
    exact le_trans hbc hab
  refine ⟨?_, ?_, by
    norm_num [fra_std, sampleVar, stdCmp, List.insertionSort, List.orderedInsert]⟩
  · have hs := List.sorted_insertionSort (fun a b => stdCmp a.2 b.2 = true)
      (cols.map (fun c => (c.1, sampleVar c.2)))
    unfold fra_std
    exact hs
  · exact List.perm_insertionSort (fun a b => stdCmp a.2 b.2 = true)
      (cols.map (fun c => (c.1, sampleVar c.2)))

/-- Claim C7, witness: the ranking of the concrete two-column example
places "A-B" before "C-D". -/
theorem fra_std_spec_witness :
    fra_std [("A-B", [1, 2, 3]), ("C-D", [1, 1, 1])]
      = [("A-B", some 1), ("C-D", some 0)] :=
  (fra_std_spec []).2.2

/-- Key lemma for idempotence: whenever detection succeeds and the
detected column is renamed to "Date", the renamed column list's first
predicate match is the literal name "Date".  The detected column is the
first match (or, when nothing matches, the first column); renaming it
puts the matching name "Date" at that position, and every earlier column
still matches nothing. -/
lemma filter_rename_head : ∀ (names : List String) (d : String),
    detect_date_column names = some d →
    ∃ rest, (renameCols names d).filter matchesEither = "Date" :: rest := by
  intro names
  induction names with
  | nil =>
    intro d h
    simp [detect_date_column, candidatesOf] at h
  | cons c t ih =>
    intro d h
    by_cases hc : matchesEither c = true
    · have hfil : (c :: t).filter matchesEither = c :: t.filter matchesEither := by
        rw [List.filter_cons, if_pos hc]
      have hd : d = c :=
        Option.some.inj (h.symm.trans (detect_eq_of_filter_cons hfil))
      subst hd
      have hren : renameCols (d :: t) d = "Date" :: renameCols t d := by
        unfold renameCols
        rw [List.map_cons, if_pos rfl]
      rw [hren, List.filter_cons, if_pos (by decide : matchesEither "Date" = true)]
      exact ⟨_, rfl⟩
    · have hc' : matchesEither c = false := by simpa using hc
      have hfil : (c :: t).filter matchesEither = t.filter matchesEither := by
        rw [List.filter_cons, if_neg (by simp [hc'])]
      cases hft : t.filter matchesEither with
      | cons e rest' =>
        have hdet_t : detect_date_column t = some e := detect_eq_of_filter_cons hft
        have hd : d = e := by
          have h2 : detect_date_column (c :: t) = some e :=
            detect_eq_of_filter_cons (by rw [hfil, hft])
          exact Option.some.inj (h.symm.trans h2)
        subst hd
        have hmatch_d : matchesEither d = true := by
          have hm : d ∈ t.filter matchesEither := by
            rw [hft]
            exact List.mem_cons_self _ _
          exact (List.mem_filter.mp hm).2
        have hne : c ≠ d := by
          intro hcd
          rw [← hcd, hc'] at hmatch_d
          exact Bool.noConfusion hmatch_d
        have hren : renameCols (c :: t) d = c :: renameCols t d := by
          unfold renameCols
          rw [List.map_cons, if_neg hne]
        obtain ⟨rest, hrest⟩ := ih d hdet_t
        refine ⟨rest, ?_⟩
        rw [hren, List.filter_cons, if_neg (by simp [hc']), hrest]
      | nil =>
        have hfilnil : (c :: t).filter matchesEither = [] := by rw [hfil, hft]
        have hd : d = c := by
          have h2 : detect_date_column (c :: t) = some c := by
            unfold detect_date_column
            rw [candidatesOf_eq_filter, hfilnil]
            rfl
          exact Option.some.inj (h.symm.trans h2)
        subst hd
        have hren : renameCols (d :: t) d = "Date" :: renameCols t d := by
          unfold renameCols
          rw [List.map_cons, if_pos rfl]
        rw [hren, List.filter_cons,
          if_pos (by decide : matchesEither "Date" = true)]
        exact ⟨_, rfl⟩

/-- Claim C9: re-running detect-rename-classify on an already-cleaned
column list is idempotent.  Whenever the first run detected column d and
renamed it to "Date", the second run detects the column "Date", its
rename is the identity, and the DI and FRA classifications of the second
run coincide with those of the first. -/
theorem reclassify_idempotent (names : List String) (d : String)
    (h : detect_date_column names = some d) :
    detect_date_column (renameCols names d) = some "Date" ∧
    renameCols (renameCols names d) "Date" = renameCols names d ∧
    di_cols (renameCols (renameCols names d) "Date")
      = di_cols (renameCols names d) ∧
    fra_cols (renameCols (renameCols names d) "Date")
      = fra_cols (renameCols names d) := by
  obtain ⟨rest, hrest⟩ := filter_rename_head names d h
  refine ⟨detect_eq_of_filter_cons hrest, renameCols_Date _, ?_, ?_⟩
  · rw [renameCols_Date]
  · rw [renameCols_Date]

/-- Claim C9, witness: with columns ["Unnamed: 0", "F1", "F1-F2"] the
first run detects "Unnamed: 0" and renames it; the second run detects
"Date" and produces the same DI classification. -/
theorem reclassify_idempotent_witness :
    detect_date_column (renameCols ["Unnamed: 0", "F1", "F1-F2"] "Unnamed: 0")
      = some "Date" ∧
    di_cols (renameCols
        (renameCols ["Unnamed: 0", "F1", "F1-F2"] "Unnamed: 0") "Date")
      = di_cols (renameCols ["Unnamed: 0", "F1", "F1-F2"] "Unnamed: 0") :=
  ⟨(reclassify_idempotent ["Unnamed: 0", "F1", "F1-F2"] "Unnamed: 0"
      (by decide)).1,
   (reclassify_idempotent ["Unnamed: 0", "F1", "F1-F2"] "Unnamed: 0"
      (by decide)).2.2.1⟩

/-- Claim C10: the canonical name "Date" satisfies neither
classification predicate — it never belongs to the DI or FRA group of
any column list — and therefore a column named "Date" passes through
numeric coercion untouched: any coerced-table column named "Date" is
literally a column of the input table, its parsed date cells never
overwritten. -/
theorem date_column_never_classified (l : List String)
    (toNum : Cell → Option ℚ) (t : Table) (p : String × List Cell)
    (hmem : p ∈ coerceTable toNum t) (hname : p.1 = "Date") :
    "Date" ∉ di_cols l ∧ "Date" ∉ fra_cols l ∧ p ∈ t := by
  refine ⟨?_, ?_, ?_⟩
  · intro hd
    unfold di_cols at hd
    exact absurd (List.mem_filter.mp hd).2 (by decide)
  · intro hf
    unfold fra_cols at hf
    exact absurd (List.mem_filter.mp hf).2 (by decide)
  · have hmap : coerceTable toNum t
        = t.map (fun q =>
            coerceStep toNum (fra_cols_of t)
              (coerceStep toNum (di_cols_of t) q)) := by
      unfold coerceTable coercePass
      rw [List.map_map]
      rfl
    rw [hmap] at hmem
    obtain ⟨o, ho, heq⟩ := List.mem_map.mp hmem
    have heq' : coerceStep toNum (fra_cols_of t)
        (coerceStep toNum (di_cols_of t) o) = p := heq
    have ho1 : o.1 = "Date" := by
      rw [← (coerce_step_both_spec toNum t o).1, heq', hname]
    have hnd : o.1 ∉ di_cols_of t := by
      rw [ho1]
      intro hd
      unfold di_cols_of di_cols at hd
      exact absurd (List.mem_filter.mp hd).2 (by decide)
    have hnf : o.1 ∉ fra_cols_of t := by
      rw [ho1]
      intro hf
      unfold fra_cols_of fra_cols at hf
      exact absurd (List.mem_filter.mp hf).2 (by decide)
    have h3 := (coerce_step_both_spec toNum t o).2.2 ⟨hnd, hnf⟩
    rw [heq'.symm.trans h3]
    exact ho

/-- Claim C10, witness: the "Date" column of a concrete two-column table
is classified into neither group and survives coercion verbatim. -/
theorem date_column_never_classified_witness :
    "Date" ∉ di_cols ["Date", "F1", "A-B"] ∧
    "Date" ∉ fra_cols ["Date", "F1", "A-B"] ∧
    ("Date", [Cell.str "2023-01-01"]) ∈
      ([("Date", [Cell.str "2023-01-01"]), ("A-B", [Cell.missing])] : Table) :=
  date_column_never_classified ["Date", "F1", "A-B"] to_numeric
    [("Date", [Cell.str "2023-01-01"]), ("A-B", [Cell.missing])]
    ("Date", [Cell.str "2023-01-01"]) (by decide) rfl

end DiDap
